import Mathlib

/-!
Shallow embedding of the secure client file portal.

The portal's handlers are straight-line sequences of calls to a hosted
backend (object storage and a document database).  Each handler is embedded
as a pure function that, given the success/failure outcome of every hosted
call (an oracle), returns the list of hosted-service calls it made, in
order, each tagged with whether it succeeded, together with the handler's
user-visible outcome.  Database state is a record of lists, and a trace of
calls is applied to it to obtain the post-state.  Timestamps are modelled
as naturals (the code stores ISO strings whose order matches the numeric
order used here); identifiers generated from `Date.now`/`Math.random` are
passed in as parameters.
-/

namespace Portal

/-- Metadata of a file offered to the upload handler (`File` blob fields read
by the code: `name`, `size`, `type`). -/
structure IncomingFile where
  name : String
  size : Nat
  mimeType : String
deriving DecidableEq

/-- File record, as created by `handleFiles` in `FileUpload.tsx` and stored in
the `files` collection. -/
structure FileRecord where
  id : String
  userId : String
  fileName : String
  fileSize : Nat
  fileType : String
  storagePath : String
  publicUrl : String
  uploadedAt : Nat
deriving DecidableEq

/-- Access-log entry, as created in the `fileAccessLogs` collection. -/
structure AccessLog where
  id : String
  fileId : String
  userId : String
  action : String
  accessedAt : Nat
  ipAddress : String
  userAgent : String
deriving DecidableEq

/-- One kind of hosted-service (or browser-storage) call a handler can make. -/
inductive CallKind where
  | storageUpload (path : String)
  | fileCreate (r : FileRecord)
  | logCreate (l : AccessLog)
  | storageRemove (path : String)
  | fileDelete (id : String)
  | localSet (key : String) (value : List FileRecord)
deriving DecidableEq

/-- A call made by a handler, tagged with whether the hosted service reported
success (`ok = true`) or raised an error (`ok = false`). -/
structure Call where
  kind : CallKind
  ok : Bool
deriving DecidableEq

/-- File records persisted by the successful `files.create` calls of a trace. -/
def createdFiles (tr : List Call) : List FileRecord :=
  tr.filterMap fun c =>
    if c.ok then
      match c.kind with
      | .fileCreate r => some r
      | _ => none
    else none

/-- Access-log entries persisted by the successful `fileAccessLogs.create`
calls of a trace. -/
def createdLogs (tr : List Call) : List AccessLog :=
  tr.filterMap fun c =>
    if c.ok then
      match c.kind with
      | .logCreate l => some l
      | _ => none
    else none

/-- Access-log entries whose creation was attempted by a trace, whether or not
the call succeeded. -/
def attemptedLogs (tr : List Call) : List AccessLog :=
  tr.filterMap fun c =>
    match c.kind with
    | .logCreate l => some l
    | _ => none

/-- File-record identifiers whose `files.delete` call was attempted by a
trace, whether or not the call succeeded. -/
def fileDeleteCalls (tr : List Call) : List String :=
  tr.filterMap fun c =>
    match c.kind with
    | .fileDelete i => some i
    | _ => none

/-- Success/failure outcome of each hosted call an upload can make, plus the
public URL the storage upload returns on success. -/
structure UploadOracle where
  storageOk : Bool
  fileCreateOk : Bool
  logCreateOk : Bool
  publicUrl : String
deriving DecidableEq

/-- Final per-file status of the progress entry in `FileUpload.tsx`. -/
inductive FileStatus where
  | uploading
  | completed
  | error
deriving DecidableEq

/-- Outcome of processing one file in the upload loop: the calls made, the
final progress-entry status (`none` when the file was rejected for size before
an entry was touched), and whether `onUploadComplete` was invoked. -/
structure UploadResult where
  trace : List Call
  status : Option FileStatus
  callbackFired : Bool
deriving DecidableEq

/-- Size limit applied by `handleFiles` (`file.size > 10 * 1024 * 1024`). -/
def uploadSizeLimit : Nat := 10 * 1024 * 1024

/-- Body of the upload loop of `handleFiles` in `FileUpload.tsx` for a single
file.  The size check rejects with no call made; then the storage upload, the
file-record creation and the `logFileAccess` call happen in order inside one
`try`.  `logFileAccess` catches its own error, so a failed log write does not
abort the handler: the status still becomes `completed` and the completion
callback still fires. -/
def handleFile (user : String) (f : IncomingFile) (o : UploadOracle)
    (fileId logId : String) (now : Nat) (ua : String) : UploadResult :=
  if f.size > uploadSizeLimit then
    { trace := [], status := none, callbackFired := false }
  else
    let storagePath := "clients/" ++ user ++ "/" ++ f.name
    if o.storageOk = false then
      { trace := [⟨.storageUpload storagePath, false⟩],
        status := some .error, callbackFired := false }
    else
      let r : FileRecord :=
        { id := fileId, userId := user, fileName := f.name, fileSize := f.size,
          fileType := f.mimeType, storagePath := storagePath,
          publicUrl := o.publicUrl, uploadedAt := now }
      if o.fileCreateOk = false then
        { trace := [⟨.storageUpload storagePath, true⟩, ⟨.fileCreate r, false⟩],
          status := some .error, callbackFired := false }
      else
        let l : AccessLog :=
          { id := logId, fileId := fileId, userId := user, action := "upload",
            accessedAt := now, ipAddress := "", userAgent := ua }
        { trace := [⟨.storageUpload storagePath, true⟩, ⟨.fileCreate r, true⟩,
                    ⟨.logCreate l, o.logCreateOk⟩],
          status := some .completed, callbackFired := true }

/-- The upload loop: files are processed one at a time, each by `handleFile`,
with its own generated identifiers and oracle. -/
def handleFiles (user : String) (ua : String)
    (jobs : List (IncomingFile × UploadOracle × String × String × Nat)) :
    List UploadResult :=
  jobs.map fun j => handleFile user j.1 j.2.1 j.2.2.1 j.2.2.2.1 j.2.2.2.2 ua

/-- Success/failure outcome of each hosted call a delete can make. -/
structure DeleteOracle where
  logOk : Bool
  removeOk : Bool
  dbDeleteOk : Bool
deriving DecidableEq

/-- The `handleDelete` of the database-backed `FileManager` (tabbed variant):
`logFileAccess(file.id, 'delete')` (which swallows its own failure), then
`storage.remove(file.storagePath)`, then `db.files.delete(file.id)`, all in
one `try`; a storage or database failure aborts the rest and reports failure.
Returns the trace and whether the success toast was shown. -/
def handleDelete (user : String) (f : FileRecord) (o : DeleteOracle)
    (logId : String) (now : Nat) (ua : String) : List Call × Bool :=
  let logCall : Call :=
    ⟨.logCreate { id := logId, fileId := f.id, userId := user, action := "delete",
                  accessedAt := now, ipAddress := "", userAgent := ua }, o.logOk⟩
  if o.removeOk = false then
    ([logCall, ⟨.storageRemove f.storagePath, false⟩], false)
  else if o.dbDeleteOk = false then
    ([logCall, ⟨.storageRemove f.storagePath, true⟩, ⟨.fileDelete f.id, false⟩], false)
  else
    ([logCall, ⟨.storageRemove f.storagePath, true⟩, ⟨.fileDelete f.id, true⟩], true)

/-- The `handleAdminDelete` of `AdminDashboard.tsx` after the `confirm` gate:
the `admin_delete` log entry is created directly (not through the swallowing
helper), then the storage object is removed, then the record is deleted; any
failure aborts the rest. -/
def handleAdminDelete (admin : String) (f : FileRecord) (confirmed : Bool)
    (o : DeleteOracle) (logId : String) (now : Nat) (ua : String) :
    List Call × Bool :=
  if confirmed = false then ([], false)
  else
    let log : AccessLog :=
      { id := logId, fileId := f.id, userId := admin, action := "admin_delete",
        accessedAt := now, ipAddress := "", userAgent := ua }
    if o.logOk = false then
      ([⟨.logCreate log, false⟩], false)
    else if o.removeOk = false then
      ([⟨.logCreate log, true⟩, ⟨.storageRemove f.storagePath, false⟩], false)
    else if o.dbDeleteOk = false then
      ([⟨.logCreate log, true⟩, ⟨.storageRemove f.storagePath, true⟩,
        ⟨.fileDelete f.id, false⟩], false)
    else
      ([⟨.logCreate log, true⟩, ⟨.storageRemove f.storagePath, true⟩,
        ⟨.fileDelete f.id, true⟩], true)

/-- The `handleDelete` of the localStorage-backed `FileManager.tsx`: removes
the storage object at a path rebuilt from the user id and the file name, then
rewrites the `files_<user>` localStorage entry with the record filtered out;
no access-log write and no database call.  `stored` is the parsed current
content of the localStorage entry. -/
def handleDeleteLocal (user : String) (f : FileRecord)
    (stored : List FileRecord) (removeOk : Bool) : List Call × Bool :=
  let path := "clients/" ++ user ++ "/" ++ f.fileName
  if removeOk = false then
    ([⟨.storageRemove path, false⟩], false)
  else
    ([⟨.storageRemove path, true⟩,
      ⟨.localSet ("files_" ++ user) (stored.filter fun r => r.id != f.id), true⟩],
     true)

/-- Hosted database state: the `files` and `fileAccessLogs` collections. -/
structure DB where
  files : List FileRecord
  logs : List AccessLog
deriving DecidableEq

/-- Effect of one successful call on the database state; failed calls and
storage/localStorage calls leave it unchanged. -/
def applyCall (db : DB) (c : Call) : DB :=
  if c.ok then
    match c.kind with
    | .fileCreate r => { db with files := db.files ++ [r] }
    | .logCreate l => { db with logs := db.logs ++ [l] }
    | .fileDelete i => { db with files := db.files.filter fun r => r.id != i }
    | .storageUpload _ => db
    | .storageRemove _ => db
    | .localSet _ _ => db
  else db

/-- Database state after a trace of calls. -/
def applyTrace (db : DB) (tr : List Call) : DB :=
  tr.foldl applyCall db

/-- The `files.list({ where: { userId } })` query of `loadFiles`: the records
of one user.  The `orderBy` clause of the source only permutes the result and
is not modelled; the membership facts proved below are order-insensitive. -/
def listUserFiles (db : DB) (u : String) : List FileRecord :=
  db.files.filter fun r => r.userId == u

/-- Per-user storage quota record of the `userStorageQuotas` collection. -/
structure UserStorageQuota where
  userId : String
  quotaBytes : Nat
  usedBytes : Nat
  createdAt : Nat
  updatedAt : Nat
deriving DecidableEq

/-- The `DatabaseService.getUserStorageQuota` helper: list the user's quota
records with
`limit: 1`; if none exists, create one with the 1 GiB default and zero usage
and return it, otherwise return the first listed record.  Returns the record
together with the collection state after the call. -/
def getUserStorageQuota (db : List UserStorageQuota) (userId : String)
    (now : Nat) : UserStorageQuota × List UserStorageQuota :=
  match (db.filter fun q => q.userId == userId).take 1 with
  | [] =>
      let q : UserStorageQuota :=
        { userId := userId, quotaBytes := 1073741824, usedBytes := 0,
          createdAt := now, updatedAt := now }
      (q, db ++ [q])
  | q :: _ => (q, db)

/-- Character-wise lowercasing, the behaviour of `toLowerCase` on the ASCII
file names and search terms the portal handles. -/
def lowerList (s : List Char) : List Char :=
  s.map Char.toLower

/-- JavaScript `String.prototype.toLowerCase`, modelled character-wise. -/
def jsToLowerCase (s : String) : String :=
  ⟨lowerList s.data⟩

/-- Whether `n` occurs at the start of `h`. -/
def leadsList (n h : List Char) : Bool :=
  match n, h with
  | [], _ => true
  | _ :: _, [] => false
  | a :: as, b :: bs => a == b && leadsList as bs

/-- JavaScript `String.prototype.includes` on character lists: `n` occurs
contiguously somewhere in `h`. -/
def occursList (n : List Char) : List Char → Bool
  | [] => n.isEmpty
  | b :: bs => leadsList n (b :: bs) || occursList n bs

/-- JavaScript `hay.includes(needle)`. -/
def strIncludes (hay needle : String) : Bool :=
  occursList needle.data hay.data

/-- The `filteredFiles` of `FileManager.tsx` (both variants): keep the files
whose lowercased name includes the lowercased search term. -/
def filteredFiles (files : List FileRecord) (searchTerm : String) :
    List FileRecord :=
  files.filter fun f =>
    strIncludes (jsToLowerCase f.fileName) (jsToLowerCase searchTerm)

/-- The `filteredFiles` of `AdminDashboard.tsx`: keep the files whose
lowercased name or lowercased owning user id includes the lowercased search
term, and that match the selected user (an empty selection, falsy in the
source, matches every user). -/
def adminFilteredFiles (files : List FileRecord)
    (searchTerm selectedUser : String) : List FileRecord :=
  files.filter fun f =>
    (strIncludes (jsToLowerCase f.fileName) (jsToLowerCase searchTerm)
      || strIncludes (jsToLowerCase f.userId) (jsToLowerCase searchTerm))
    && (selectedUser == "" || f.userId == selectedUser)

/-- Spec-side reading of "the file name contains the term as a
case-insensitive substring": some contiguous chunk of the name lowercases to
the lowercased term. -/
def CaseInsensitiveSubstrMatch (term name : String) : Prop :=
  ∃ l c r, name.data = l ++ c ++ r ∧ lowerList c = lowerList term.data

/-- Access-log entry enriched with a display file name, the shape produced by
the log-enrichment `map` of `loadFiles` and `loadAdminData`. -/
structure EnrichedLog where
  log : AccessLog
  fileName : String
deriving DecidableEq

/-- JavaScript `x?.f || d` for a string field `f`: the default is used both
when `x` is `undefined` and when the field is the empty string (falsy). -/
def jsStringOr (x : Option String) (d : String) : String :=
  match x with
  | none => d
  | some s => if s = "" then d else s

/-- Enrichment of one log entry: `files.find(f => f.id === log.fileId)` then
`file?.fileName || 'Unknown file'`. -/
def enrichLog (files : List FileRecord) (log : AccessLog) : EnrichedLog :=
  let file := files.find? fun f => f.id == log.fileId
  { log := log, fileName := jsStringOr (file.map FileRecord.fileName) "Unknown file" }

/-- The enrichment `map` over the fetched logs. -/
def enrichLogs (files : List FileRecord) (logs : List AccessLog) :
    List EnrichedLog :=
  logs.map (enrichLog files)

/-- Per-user statistics entry of the admin dashboard. -/
structure UserStats where
  userId : String
  fileCount : Nat
  totalSize : Nat
  lastActivity : Nat
deriving DecidableEq

/-- One step of the `files.forEach` of `loadAdminData`: insert a zeroed entry
keyed by the owner on first sight (with `lastActivity` the file's upload
time), then bump the count and total size and take the later activity time.
The keyed map is modelled as a list of entries with distinct user ids, in
insertion order. -/
def addFile (m : List UserStats) (f : FileRecord) : List UserStats :=
  let m1 :=
    if m.any fun s => s.userId == f.userId then m
    else m ++ [{ userId := f.userId, fileCount := 0, totalSize := 0,
                 lastActivity := f.uploadedAt }]
  m1.map fun s =>
    if s.userId == f.userId then
      { s with fileCount := s.fileCount + 1, totalSize := s.totalSize + f.fileSize,
               lastActivity :=
                 if s.lastActivity < f.uploadedAt then f.uploadedAt
                 else s.lastActivity }
    else s

/-- One step of the `logs.forEach` of `loadAdminData`: if the log's user
already has an entry, take the later activity time; otherwise do nothing. -/
def addLog (m : List UserStats) (l : AccessLog) : List UserStats :=
  m.map fun s =>
    if s.userId == l.userId && s.lastActivity < l.accessedAt then
      { s with lastActivity := l.accessedAt }
    else s

/-- The per-user statistics computed by `loadAdminData`: fold the files, then
fold the logs.  The final sort by `lastActivity` only permutes the entries
and is not modelled. -/
def computeUserStats (files : List FileRecord) (logs : List AccessLog) :
    List UserStats :=
  logs.foldl addLog (files.foldl addFile [])

/-- A file of exactly 10 MiB, the boundary of the size check. -/
def tenMiBFile : IncomingFile :=
  { name := "big.bin", size := 10 * 1024 * 1024,
    mimeType := "application/octet-stream" }

/-- C1: the claim says every file of size at least 10 MiB is rejected before
any side effect, but `handleFiles` only rejects sizes strictly greater than
`10 * 1024 * 1024`: a file of exactly 10 MiB is uploaded, its record is
created and its upload is logged. -/
theorem C1_counterexample :
    tenMiBFile.size ≥ 10 * 1024 * 1024 ∧
    (handleFile "user_1" tenMiBFile ⟨true, true, true, "https://cdn.example/big.bin"⟩
        "file_1" "log_1" 0 "agent").trace ≠ [] ∧
    (createdFiles (handleFile "user_1" tenMiBFile
        ⟨true, true, true, "https://cdn.example/big.bin"⟩
        "file_1" "log_1" 0 "agent").trace).length = 1 ∧
    (createdLogs (handleFile "user_1" tenMiBFile
        ⟨true, true, true, "https://cdn.example/big.bin"⟩
        "file_1" "log_1" 0 "agent").trace).length = 1 := by
  decide

/-- C1 (amended): every file whose size is strictly greater than 10 MiB is
rejected before any side effect: no storage upload, no file-record creation
and no access-log write is made for it, and the completion callback does not
fire. -/
theorem C1_amended (user : String) (f : IncomingFile) (o : UploadOracle)
    (fileId logId : String) (now : Nat) (ua : String)
    (h : f.size > 10 * 1024 * 1024) :
    handleFile user f o fileId logId now ua =
      { trace := [], status := none, callbackFired := false } := by
  simp [handleFile, uploadSizeLimit, h]

/-- Witness for `C1_amended` at a concrete oversized file. -/
theorem C1_amended_witness :
    (10 * 1024 * 1024 + 1 : Nat) > 10 * 1024 * 1024 ∧
    handleFile "user_1" ⟨"huge.bin", 10 * 1024 * 1024 + 1, "application/zip"⟩
        ⟨true, true, true, "https://cdn.example/huge.bin"⟩ "file_2" "log_2" 0 "agent" =
      { trace := [], status := none, callbackFired := false } :=
  ⟨by decide,
   C1_amended "user_1" ⟨"huge.bin", 10 * 1024 * 1024 + 1, "application/zip"⟩
     ⟨true, true, true, "https://cdn.example/huge.bin"⟩ "file_2" "log_2" 0 "agent"
     (by decide)⟩

/-- C3: for every file strictly under the 10 MiB limit, a run of the upload
handler in which every hosted call succeeds persists exactly one file record
and exactly one access-log entry, the entry's action is `upload` and its
`fileId` is the record's id. -/
theorem C3_upload_one_record_one_log (user : String) (f : IncomingFile)
    (url fileId logId ua : String) (now : Nat)
    (h : f.size < 10 * 1024 * 1024) :
    ∃ r l,
      createdFiles (handleFile user f ⟨true, true, true, url⟩ fileId logId now ua).trace
        = [r] ∧
      createdLogs (handleFile user f ⟨true, true, true, url⟩ fileId logId now ua).trace
        = [l] ∧
      l.action = "upload" ∧ l.fileId = r.id := by
  refine ⟨{ id := fileId, userId := user, fileName := f.name, fileSize := f.size,
            fileType := f.mimeType, storagePath := "clients/" ++ user ++ "/" ++ f.name,
            publicUrl := url, uploadedAt := now },
          { id := logId, fileId := fileId, userId := user, action := "upload",
            accessedAt := now, ipAddress := "", userAgent := ua },
          ?_, ?_, rfl, rfl⟩ <;>
    simp [handleFile, uploadSizeLimit, Nat.not_lt.mpr (Nat.le_of_lt h),
      createdFiles, createdLogs]

/-- Witness for `C3_upload_one_record_one_log` at a concrete small file. -/
theorem C3_witness :
    (120 : Nat) < 10 * 1024 * 1024 ∧
    ∃ r l,
      createdFiles (handleFile "user_1" ⟨"notes.txt", 120, "text/plain"⟩
          ⟨true, true, true, "https://cdn.example/notes.txt"⟩
          "file_3" "log_3" 7 "agent").trace = [r] ∧
      createdLogs (handleFile "user_1" ⟨"notes.txt", 120, "text/plain"⟩
          ⟨true, true, true, "https://cdn.example/notes.txt"⟩
          "file_3" "log_3" 7 "agent").trace = [l] ∧
      l.action = "upload" ∧ l.fileId = r.id :=
  ⟨by decide,
   C3_upload_one_record_one_log "user_1" ⟨"notes.txt", 120, "text/plain"⟩
     "https://cdn.example/notes.txt" "file_3" "log_3" "agent" 7 (by decide)⟩

/-- C9: when the storage upload and the record creation succeed but the
upload access-log write fails, `logFileAccess` swallows the failure: the file
still reaches `completed` status, the completion callback fires, and the
database ends with a file record but no access-log entry. -/
theorem C9_log_failure_swallowed (user : String) (f : IncomingFile)
    (url fileId logId ua : String) (now : Nat)
    (h : f.size ≤ 10 * 1024 * 1024) :
    (handleFile user f ⟨true, true, false, url⟩ fileId logId now ua).status
        = some .completed ∧
    (handleFile user f ⟨true, true, false, url⟩ fileId logId now ua).callbackFired
        = true ∧
    (∃ r, createdFiles
        (handleFile user f ⟨true, true, false, url⟩ fileId logId now ua).trace = [r]) ∧
    createdLogs (handleFile user f ⟨true, true, false, url⟩ fileId logId now ua).trace
        = [] := by
  refine ⟨?_, ?_,
    ⟨{ id := fileId, userId := user, fileName := f.name, fileSize := f.size,
       fileType := f.mimeType, storagePath := "clients/" ++ user ++ "/" ++ f.name,
       publicUrl := url, uploadedAt := now }, ?_⟩, ?_⟩ <;>
    simp [handleFile, uploadSizeLimit, Nat.not_lt.mpr h, createdFiles, createdLogs]

/-- Witness for `C9_log_failure_swallowed` at a concrete file. -/
theorem C9_witness :
    (64 : Nat) ≤ 10 * 1024 * 1024 ∧
    ((handleFile "user_1" ⟨"a.txt", 64, "text/plain"⟩
        ⟨true, true, false, "https://cdn.example/a.txt"⟩ "file_4" "log_4" 9 "agent").status
        = some .completed ∧
     (handleFile "user_1" ⟨"a.txt", 64, "text/plain"⟩
        ⟨true, true, false, "https://cdn.example/a.txt"⟩ "file_4" "log_4" 9 "agent").callbackFired
        = true ∧
     (∃ r, createdFiles (handleFile "user_1" ⟨"a.txt", 64, "text/plain"⟩
        ⟨true, true, false, "https://cdn.example/a.txt"⟩ "file_4" "log_4" 9 "agent").trace = [r]) ∧
     createdLogs (handleFile "user_1" ⟨"a.txt", 64, "text/plain"⟩
        ⟨true, true, false, "https://cdn.example/a.txt"⟩ "file_4" "log_4" 9 "agent").trace
        = []) :=
  ⟨by decide,
   C9_log_failure_swallowed "user_1" ⟨"a.txt", 64, "text/plain"⟩
     "https://cdn.example/a.txt" "file_4" "log_4" "agent" 9 (by decide)⟩

/-- A concrete stored file record used by the delete counterexamples. -/
def sampleRecord : FileRecord :=
  { id := "file_9", userId := "user_1", fileName := "report.pdf",
    fileSize := 2048, fileType := "application/pdf",
    storagePath := "clients/user_1/report.pdf",
    publicUrl := "https://cdn.example/report.pdf", uploadedAt := 3 }

/-- C2: the claim says that when the storage removal fails after the delete
log entry was written, the database record deletion still proceeds.  In the
code all three steps sit in one `try`, so the thrown storage error skips the
`files.delete` call entirely: the trace holds the persisted delete log and
the failed removal, attempts no record deletion, and reports failure. -/
theorem C2_counterexample :
    (createdLogs (handleDelete "user_1" sampleRecord ⟨true, false, true⟩
        "log_9" 5 "agent").1).map AccessLog.action = ["delete"] ∧
    fileDeleteCalls (handleDelete "user_1" sampleRecord ⟨true, false, true⟩
        "log_9" 5 "agent").1 = [] ∧
    (handleDelete "user_1" sampleRecord ⟨true, false, true⟩ "log_9" 5 "agent").2
        = false := by
  decide

/-- C2 (amended): when the storage removal fails after the delete access-log
entry was written, the handler aborts: no database file-record deletion is
attempted, the delete log entry remains the only persisted write, and the
delete is reported as failed, leaving the record in place and pointing at a
possibly half-removed object. -/
theorem C2_amended (user : String) (f : FileRecord) (o : DeleteOracle)
    (logId : String) (now : Nat) (ua : String)
    (hlog : o.logOk = true) (hrm : o.removeOk = false) :
    fileDeleteCalls (handleDelete user f o logId now ua).1 = [] ∧
    (createdLogs (handleDelete user f o logId now ua).1).map AccessLog.action
        = ["delete"] ∧
    (handleDelete user f o logId now ua).2 = false := by
  simp [handleDelete, hlog, hrm, fileDeleteCalls, createdLogs]

/-- Witness for `C2_amended` at a concrete record and oracle. -/
theorem C2_amended_witness :
    ((⟨true, false, true⟩ : DeleteOracle).logOk = true ∧
     (⟨true, false, true⟩ : DeleteOracle).removeOk = false) ∧
    (fileDeleteCalls (handleDelete "user_1" sampleRecord ⟨true, false, true⟩
        "log_9" 5 "agent").1 = [] ∧
     (createdLogs (handleDelete "user_1" sampleRecord ⟨true, false, true⟩
        "log_9" 5 "agent").1).map AccessLog.action = ["delete"] ∧
     (handleDelete "user_1" sampleRecord ⟨true, false, true⟩ "log_9" 5 "agent").2
        = false) :=
  ⟨⟨rfl, rfl⟩, C2_amended "user_1" sampleRecord ⟨true, false, true⟩ "log_9" 5 "agent" rfl rfl⟩

/-- A record whose stored `storagePath` differs from the path the
localStorage-backed delete rebuilds from the user id and file name. -/
def renamedRecord : FileRecord :=
  { id := "file_8", userId := "user_1", fileName := "name.pdf",
    fileSize := 100, fileType := "application/pdf",
    storagePath := "clients/user_1/old-name.pdf",
    publicUrl := "https://cdn.example/old-name.pdf", uploadedAt := 2 }

/-- C4: the claim says every delete first writes an access-log entry, then
removes the storage object at the record's `storagePath`, then deletes the
record from the database.  The `handleDelete` of the localStorage-backed
`FileManager.tsx` does none of this: its trace holds no access-log write and
no database delete, and its storage removal targets a path rebuilt from the
user id and file name, which differs from the record's `storagePath`. -/
theorem C4_counterexample :
    attemptedLogs (handleDeleteLocal "user_1" renamedRecord [renamedRecord] true).1
        = [] ∧
    fileDeleteCalls (handleDeleteLocal "user_1" renamedRecord [renamedRecord] true).1
        = [] ∧
    (handleDeleteLocal "user_1" renamedRecord [renamedRecord] true).1.map Call.kind
        = [.storageRemove "clients/user_1/name.pdf",
           .localSet "files_user_1" []] ∧
    renamedRecord.storagePath ≠ "clients/user_1/name.pdf" := by
  decide

/-- C4 (amended): the database-backed delete handlers perform exactly the
claimed sequence — a `delete` (or `admin_delete`) log write, then the storage
removal at the record's `storagePath`, then the database record deletion —
while the localStorage-backed `FileManager.tsx` delete instead removes the
storage object at a path rebuilt from the user id and file name and rewrites
the user's localStorage file list, with no access-log write and no database
call. -/
theorem C4_amended (user admin : String) (f : FileRecord)
    (stored : List FileRecord) (logId : String) (now : Nat) (ua : String) :
    (handleDelete user f ⟨true, true, true⟩ logId now ua).1.map Call.kind
      = [.logCreate { id := logId, fileId := f.id, userId := user,
                      action := "delete", accessedAt := now, ipAddress := "",
                      userAgent := ua },
         .storageRemove f.storagePath, .fileDelete f.id] ∧
    (handleAdminDelete admin f true ⟨true, true, true⟩ logId now ua).1.map Call.kind
      = [.logCreate { id := logId, fileId := f.id, userId := admin,
                      action := "admin_delete", accessedAt := now, ipAddress := "",
                      userAgent := ua },
         .storageRemove f.storagePath, .fileDelete f.id] ∧
    (handleDeleteLocal user f stored true).1.map Call.kind
      = [.storageRemove ("clients/" ++ user ++ "/" ++ f.fileName),
         .localSet ("files_" ++ user) (stored.filter fun r => r.id != f.id)] := by
  refine ⟨?_, ?_, ?_⟩ <;> simp [handleDelete, handleAdminDelete, handleDeleteLocal]

/-- C8: after a successful delete of a file, a subsequent listing for the
user contains no record with the deleted file's id: applying the successful
delete trace to any database state removes every record with that id. -/
theorem C8_delete_then_list (db : DB) (user viewer : String) (f : FileRecord)
    (logId : String) (now : Nat) (ua : String) :
    (listUserFiles
        (applyTrace db (handleDelete user f ⟨true, true, true⟩ logId now ua).1)
        viewer).all (fun r => r.id != f.id) = true := by
  simp only [handleDelete, applyTrace, List.foldl, applyCall, listUserFiles]
  simp [List.all_eq_true, List.mem_filter]

/-- C5: a quota lookup for a user with no existing quota record creates and
returns a record with the 1 GiB default quota and zero used bytes, and a
second lookup on the resulting state returns that very record and leaves the
state unchanged: no new record, no differing field. -/
theorem C5_quota_default_then_stable (db : List UserStorageQuota) (u : String)
    (now now2 : Nat) (h : ∀ q ∈ db, q.userId ≠ u) :
    ∃ rec db2,
      getUserStorageQuota db u now = (rec, db2) ∧
      rec.userId = u ∧ rec.quotaBytes = 1073741824 ∧ rec.usedBytes = 0 ∧
      getUserStorageQuota db2 u now2 = (rec, db2) := by
  have hfil : db.filter (fun q => q.userId == u) = [] := by
    rw [List.filter_eq_nil_iff]
    intro q hq
    simp [h q hq]
  refine ⟨{ userId := u, quotaBytes := 1073741824, usedBytes := 0,
            createdAt := now, updatedAt := now },
          db ++ [{ userId := u, quotaBytes := 1073741824, usedBytes := 0,
                   createdAt := now, updatedAt := now }], ?_, rfl, rfl, rfl, ?_⟩
  · simp [getUserStorageQuota, hfil]
  · simp [getUserStorageQuota, List.filter_append, hfil]

/-- Witness for `C5_quota_default_then_stable`: a state holding only another
user's quota record. -/
theorem C5_witness :
    (∀ q ∈ [({ userId := "bob", quotaBytes := 5, usedBytes := 5,
               createdAt := 0, updatedAt := 0 } : UserStorageQuota)],
        q.userId ≠ "alice") ∧
    ∃ rec db2,
      getUserStorageQuota
          [{ userId := "bob", quotaBytes := 5, usedBytes := 5,
             createdAt := 0, updatedAt := 0 }] "alice" 3 = (rec, db2) ∧
      rec.userId = "alice" ∧ rec.quotaBytes = 1073741824 ∧ rec.usedBytes = 0 ∧
      getUserStorageQuota db2 "alice" 7 = (rec, db2) :=
  ⟨by decide,
   C5_quota_default_then_stable
     [{ userId := "bob", quotaBytes := 5, usedBytes := 5,
        createdAt := 0, updatedAt := 0 }] "alice" 3 7 (by decide)⟩

theorem leadsList_iff (n h : List Char) :
    leadsList n h = true ↔ ∃ r, h = n ++ r := by
  induction n generalizing h with
  | nil => simp [leadsList]
  | cons a as ih =>
    cases h with
    | nil => simp [leadsList]
    | cons b bs =>
      simp only [leadsList, Bool.and_eq_true, beq_iff_eq, ih, List.cons_append,
        List.cons.injEq]
      constructor
      · rintro ⟨hab, r, hr⟩
        exact ⟨r, hab.symm, hr⟩
      · rintro ⟨r, hba, hr⟩
        exact ⟨hba.symm, r, hr⟩

theorem occursList_iff (n h : List Char) :
    occursList n h = true ↔ ∃ l r, h = l ++ n ++ r := by
  induction h with
  | nil =>
    simp only [occursList, List.isEmpty_iff]
    constructor
    · rintro rfl
      exact ⟨[], [], rfl⟩
    · rintro ⟨l, r, hl⟩
      rcases List.append_eq_nil.mp hl.symm with ⟨h1, h2⟩
      exact (List.append_eq_nil.mp h1).2
  | cons b bs ih =>
    simp only [occursList, Bool.or_eq_true, leadsList_iff, ih]
    constructor
    · rintro (⟨r, hr⟩ | ⟨l, r, hr⟩)
      · exact ⟨[], r, by simp [hr]⟩
      · exact ⟨b :: l, r, by simp [hr]⟩
    · rintro ⟨l, r, hr⟩
      cases l with
      | nil => exact Or.inl ⟨r, by simpa using hr⟩
      | cons c l2 =>
        simp only [List.cons_append, List.cons.injEq] at hr
        exact Or.inr ⟨l2, r, hr.2⟩

/-- Bridge between the code's boolean test (lowercase both strings, then
substring containment) and the spec-side reading of case-insensitive
substring matching. -/
theorem strIncludes_lower_iff (name term : String) :
    strIncludes (jsToLowerCase name) (jsToLowerCase term) = true ↔
      CaseInsensitiveSubstrMatch term name := by
  show occursList (lowerList term.data) (lowerList name.data) = true ↔ _
  rw [occursList_iff]
  constructor
  · rintro ⟨l, r, hr⟩
    unfold lowerList at hr
    rcases List.map_eq_append_iff.mp hr with ⟨s1, t1, hsplit, hm1, hm2⟩
    rcases List.map_eq_append_iff.mp hm1 with ⟨a, c, hs1, hma, hmc⟩
    refine ⟨a, c, t1, ?_, hmc⟩
    rw [hsplit, hs1, List.append_assoc]
  · rintro ⟨l, c, r, hname, hc⟩
    refine ⟨lowerList l, lowerList r, ?_⟩
    unfold lowerList at hc ⊢
    simp [hname, hc]

/-- The sample file of the claim: `Invoice.pdf` must match query `invoice`. -/
def invoiceSample : FileRecord :=
  { id := "f_inv", userId := "user_1", fileName := "Invoice.pdf",
    fileSize := 10, fileType := "application/pdf",
    storagePath := "clients/user_1/Invoice.pdf",
    publicUrl := "https://cdn.example/Invoice.pdf", uploadedAt := 1 }

/-- A record whose owning user id matches the query while its file name does
not. -/
def userMatchRecord : FileRecord :=
  { id := "f2", userId := "invoice_user", fileName := "report.txt",
    fileSize := 20, fileType := "text/plain",
    storagePath := "clients/invoice_user/report.txt",
    publicUrl := "https://cdn.example/report.txt", uploadedAt := 2 }

/-- C6: the claim says the search filter keeps exactly the records whose file
name contains the term case-insensitively, but the admin dashboard's filter
also keeps records whose owning user id contains the term: for the query
`invoice`, a file named `report.txt` owned by `invoice_user` is kept even
though its name does not contain the term. -/
theorem C6_counterexample :
    userMatchRecord ∈ adminFilteredFiles [userMatchRecord] "invoice" "" ∧
    ¬ CaseInsensitiveSubstrMatch "invoice" userMatchRecord.fileName := by
  refine ⟨by decide, fun h => ?_⟩
  have h2 := (strIncludes_lower_iff userMatchRecord.fileName "invoice").mpr h
  revert h2
  decide

/-- C6 (amended): the `FileManager` filter keeps exactly the records whose
file name contains the term as a case-insensitive substring — in particular a
file named `Invoice.pdf` is kept for the query `invoice` — while the admin
dashboard filter (with no user selected) keeps exactly the records whose file
name or owning user id contains the term case-insensitively. -/
theorem C6_amended (files : List FileRecord) (term : String) (f : FileRecord) :
    (f ∈ filteredFiles files term ↔
      f ∈ files ∧ CaseInsensitiveSubstrMatch term f.fileName) ∧
    (f ∈ adminFilteredFiles files term "" ↔
      f ∈ files ∧ (CaseInsensitiveSubstrMatch term f.fileName ∨
                   CaseInsensitiveSubstrMatch term f.userId)) ∧
    invoiceSample ∈ filteredFiles [invoiceSample] "invoice" := by
  refine ⟨?_, ?_, by decide⟩
  · rw [filteredFiles, List.mem_filter, strIncludes_lower_iff]
  · rw [adminFilteredFiles, List.mem_filter]
    simp only [Bool.and_eq_true, Bool.or_eq_true, strIncludes_lower_iff,
      beq_self_eq_true, Bool.true_or, and_true]

/-- JavaScript `Array.prototype.find` on a collection whose ids are pairwise
distinct returns the record with the sought id whenever one is present. -/
theorem find?_of_nodup_ids {files : List FileRecord} {f : FileRecord} {k : String}
    (hnd : (files.map FileRecord.id).Nodup) (hf : f ∈ files) (hk : f.id = k) :
    files.find? (fun g => g.id == k) = some f := by
  induction files with
  | nil => cases hf
  | cons g gs ih =>
    simp only [List.map_cons, List.nodup_cons] at hnd
    rcases List.mem_cons.mp hf with rfl | hmem
    · rw [List.find?_cons_of_pos _ (by simp [hk])]
    · have hne : g.id ≠ k := by
        intro he
        exact hnd.1 (by rw [he, ← hk]; exact List.mem_map_of_mem _ hmem)
      rw [List.find?_cons_of_neg _ (by simp [hne])]
      exact ih hnd.2 hmem

/-- A stored record whose file name is the empty string. -/
def emptyNameRecord : FileRecord :=
  { id := "f7", userId := "user_1", fileName := "", fileSize := 1,
    fileType := "text/plain", storagePath := "clients/user_1/",
    publicUrl := "https://cdn.example/f7", uploadedAt := 4 }

/-- A log entry referencing `emptyNameRecord`. -/
def emptyNameLog : AccessLog :=
  { id := "log_7", fileId := "f7", userId := "user_1", action := "download",
    accessedAt := 6, ipAddress := "", userAgent := "agent" }

/-- C7: the claim says that whenever the referenced record is present in the
fetched collection the entry is assigned that record's `fileName`; but the
enrichment uses JavaScript `||`, for which the empty string is falsy, so a
present record whose `fileName` is `""` yields the placeholder `Unknown file`
instead of the record's own (empty) name. -/
theorem C7_counterexample :
    emptyNameRecord ∈ [emptyNameRecord] ∧
    emptyNameRecord.id = emptyNameLog.fileId ∧
    (enrichLogs [emptyNameRecord] [emptyNameLog]).map EnrichedLog.fileName
      = ["Unknown file"] ∧
    "Unknown file" ≠ emptyNameRecord.fileName := by
  decide

/-- C7 (amended): when no fetched record carries the entry's `fileId` the
enrichment assigns the placeholder `Unknown file`; when the collection's ids
are pairwise distinct and a record with the entry's `fileId` is present, the
enrichment assigns that record's `fileName`, except that an empty `fileName`
(falsy under the `||` used by the code) also yields the placeholder. -/
theorem C7_amended (files : List FileRecord) (l : AccessLog) :
    ((∀ f ∈ files, f.id ≠ l.fileId) →
      (enrichLog files l).fileName = "Unknown file") ∧
    (∀ f, (files.map FileRecord.id).Nodup → f ∈ files → f.id = l.fileId →
      (enrichLog files l).fileName =
        if f.fileName = "" then "Unknown file" else f.fileName) := by
  constructor
  · intro hnone
    have hfind : files.find? (fun g => g.id == l.fileId) = none := by
      rw [List.find?_eq_none]
      intro g hg
      simp [hnone g hg]
    simp [enrichLog, hfind, jsStringOr]
  · intro f hnd hf hk
    have hfind := find?_of_nodup_ids hnd hf hk
    simp [enrichLog, hfind, jsStringOr]

/-- A log entry matching no record of the sample collection. -/
def strayLog : AccessLog :=
  { id := "log_5", fileId := "f_gone", userId := "user_1", action := "view",
    accessedAt := 8, ipAddress := "", userAgent := "agent" }

/-- A log entry referencing `invoiceSample`. -/
def invoiceLog : AccessLog :=
  { id := "log_6", fileId := "f_inv", userId := "user_1", action := "view",
    accessedAt := 9, ipAddress := "", userAgent := "agent" }

/-- Witness for `C7_amended`: a missing record yields the placeholder, a
present record with a nonempty name yields that name. -/
theorem C7_amended_witness :
    ((∀ f ∈ [invoiceSample], f.id ≠ strayLog.fileId) ∧
     (enrichLog [invoiceSample] strayLog).fileName = "Unknown file") ∧
    (([invoiceSample].map FileRecord.id).Nodup ∧
     invoiceSample ∈ [invoiceSample] ∧ invoiceSample.id = invoiceLog.fileId ∧
     (enrichLog [invoiceSample] invoiceLog).fileName =
       if invoiceSample.fileName = "" then "Unknown file"
       else invoiceSample.fileName) :=
  ⟨⟨by decide, (C7_amended [invoiceSample] strayLog).1 (by decide)⟩,
   ⟨by decide, by decide, by decide,
    (C7_amended [invoiceSample] invoiceLog).2 invoiceSample (by decide)
      (by decide) (by decide)⟩⟩

/-- Mapping an entry-wise update that keeps `userId` fixed does not change
which user ids have an entry. -/
theorem exists_userId_map {g : UserStats → UserStats}
    (hg : ∀ s, (g s).userId = s.userId) (m : List UserStats) (u : String) :
    (∃ s ∈ m.map g, s.userId = u) ↔ ∃ s ∈ m, s.userId = u := by
  simp only [List.mem_map]
  constructor
  · rintro ⟨s, ⟨t, ht, rfl⟩, hu⟩
    exact ⟨t, ht, by rwa [hg] at hu⟩
  · rintro ⟨t, ht, hu⟩
    exact ⟨g t, ⟨t, ht, rfl⟩, by rwa [hg]⟩

theorem entry_addFile (m : List UserStats) (f : FileRecord) (u : String) :
    (∃ s ∈ addFile m f, s.userId = u) ↔
      (∃ s ∈ m, s.userId = u) ∨ f.userId = u := by
  unfold addFile
  rw [exists_userId_map (by intro s; split <;> rfl)]
  by_cases hany : (m.any fun s => s.userId == f.userId) = true
  · rw [if_pos hany]
    constructor
    · exact Or.inl
    · rintro (h | h)
      · exact h
      · rcases List.any_eq_true.mp hany with ⟨s, hs, hsu⟩
        exact ⟨s, hs, by rw [beq_iff_eq] at hsu; rw [hsu, h]⟩
  · rw [if_neg hany]
    simp only [List.mem_append, List.mem_singleton]
    constructor
    · rintro ⟨s, hs | rfl, hu⟩
      · exact Or.inl ⟨s, hs, hu⟩
      · exact Or.inr hu
    · rintro (⟨s, hs, hu⟩ | h)
      · exact ⟨s, Or.inl hs, hu⟩
      · exact ⟨_, Or.inr rfl, h⟩

theorem entry_addLog (m : List UserStats) (l : AccessLog) (u : String) :
    (∃ s ∈ addLog m l, s.userId = u) ↔ ∃ s ∈ m, s.userId = u := by
  unfold addLog
  exact exists_userId_map (by intro s; split <;> rfl) m u

theorem entry_foldl_addFile (files : List FileRecord) (m : List UserStats)
    (u : String) :
    (∃ s ∈ files.foldl addFile m, s.userId = u) ↔
      (∃ s ∈ m, s.userId = u) ∨ ∃ f ∈ files, f.userId = u := by
  induction files generalizing m with
  | nil => simp
  | cons f fs ih =>
    rw [List.foldl_cons, ih, entry_addFile]
    simp only [List.mem_cons]
    constructor
    · rintro ((h | h) | ⟨g, hg, hu⟩)
      · exact Or.inl h
      · exact Or.inr ⟨f, Or.inl rfl, h⟩
      · exact Or.inr ⟨g, Or.inr hg, hu⟩
    · rintro (h | ⟨g, rfl | hg, hu⟩)
      · exact Or.inl (Or.inl h)
      · exact Or.inl (Or.inr hu)
      · exact Or.inr ⟨g, hg, hu⟩

theorem entry_foldl_addLog (logs : List AccessLog) (m : List UserStats)
    (u : String) :
    (∃ s ∈ logs.foldl addLog m, s.userId = u) ↔ ∃ s ∈ m, s.userId = u := by
  induction logs generalizing m with
  | nil => rfl
  | cons l ls ih => rw [List.foldl_cons, ih, entry_addLog]

/-- A log entry whose user has no statistics entry leaves the map unchanged:
the source's `userStatsMap.get(log.userId)` comes back `undefined` and the
guarded update is skipped. -/
theorem addLog_no_entry (m : List UserStats) (l : AccessLog)
    (h : ∀ s ∈ m, s.userId ≠ l.userId) : addLog m l = m := by
  induction m with
  | nil => rfl
  | cons s ms ih =>
    have hs : s.userId ≠ l.userId := h s (List.mem_cons_self s ms)
    have hms := ih fun t ht => h t (List.mem_cons_of_mem s ht)
    simp only [addLog, List.map_cons] at hms ⊢
    rw [if_neg (by simp [hs]), hms]

theorem foldl_addLog_filter (files : List FileRecord) (logs : List AccessLog)
    (m : List UserStats)
    (hkeys : ∀ u, (∃ s ∈ m, s.userId = u) ↔ ∃ f ∈ files, f.userId = u) :
    logs.foldl addLog m
      = (logs.filter fun l => files.any fun f => f.userId == l.userId).foldl
          addLog m := by
  induction logs generalizing m with
  | nil => rfl
  | cons l ls ih =>
    rw [List.filter_cons]
    by_cases hl : (files.any fun f => f.userId == l.userId) = true
    · rw [if_pos hl, List.foldl_cons, List.foldl_cons]
      refine ih (addLog m l) fun u => ?_
      rw [entry_addLog]
      exact hkeys u
    · have hnone : ∀ s ∈ m, s.userId ≠ l.userId := by
        intro s hs he
        apply hl
        rcases (hkeys l.userId).mp ⟨s, hs, he⟩ with ⟨f, hf, hfu⟩
        exact List.any_eq_true.mpr ⟨f, hf, by simp [hfu]⟩
      rw [if_neg hl, List.foldl_cons, addLog_no_entry m l hnone]
      exact ih m hkeys

/-- C10: a per-user statistics entry exists exactly for the user ids owning
at least one fetched file record, and the statistics are unchanged if the
logs of users owning no file record are dropped — such logs never touch any
entry's most-recent-activity value. -/
theorem C10_stats_only_file_owners (files : List FileRecord)
    (logs : List AccessLog) :
    (∀ u, (∃ s ∈ computeUserStats files logs, s.userId = u) ↔
      ∃ f ∈ files, f.userId = u) ∧
    computeUserStats files logs
      = computeUserStats files
          (logs.filter fun l => files.any fun f => f.userId == l.userId) := by
  have hbase : ∀ u, (∃ s ∈ files.foldl addFile [], s.userId = u) ↔
      ∃ f ∈ files, f.userId = u := by
    intro u
    rw [entry_foldl_addFile]
    simp
  constructor
  · intro u
    unfold computeUserStats
    rw [entry_foldl_addLog]
    exact hbase u
  · unfold computeUserStats
    exact foldl_addLog_filter files logs _ hbase

end Portal
